import Mathlib

/-!
Shallow embedding of the agent workflow orchestrator of the
`langgraph-mongo-llm` repository (server2 variant), covering:

- the configuration constants (`src/server2/src/agent/config/config.ts`),
- the error taxonomy (`src/server2/src/agent/config/errors.ts`),
- the turn state machine routing (`shouldContinue`, `createWorkflow` in
  `src/server2/src/agent/agent.ts`),
- the agent node error handling (`callModel`),
- input validation and the orchestrator boundary (`validateInputs`,
  `callAgent`),
- the employee semantic lookup tool
  (`src/server2/src/agent/tools/employee-lookup.ts`).

External collaborators (the language model, the embedding service, the
vector index, the document store) are parameters of the definitions:
each is a function returning `Except JsError`-style outcomes, standing
for a promise that either resolves or rejects.
-/

/-! ## Configuration (`src/server2/src/agent/config/config.ts`) -/

/-- Configuration constants record, mirroring the `CONFIG` object.
Timeout fields are in milliseconds, exactly as in the source. -/
structure Config where
  MODEL_TIMEOUT : Nat
  WORKFLOW_TIMEOUT : Nat
  MAX_MODEL_RETRIES : Nat
  MAX_WORKFLOW_RETRIES : Nat
  RETRY_FACTOR : Nat
  RETRY_MIN_TIMEOUT : Nat
  RETRY_MAX_TIMEOUT : Nat
  RECURSION_LIMIT : Nat
  MAX_QUERY_LENGTH : Nat
  MAX_THREAD_ID_LENGTH : Nat
deriving DecidableEq, Repr

/-- The `CONFIG` constant object from `config.ts`. -/
def CONFIG : Config :=
  { MODEL_TIMEOUT := 10000
    WORKFLOW_TIMEOUT := 30000
    MAX_MODEL_RETRIES := 3
    MAX_WORKFLOW_RETRIES := 2
    RETRY_FACTOR := 2
    RETRY_MIN_TIMEOUT := 1000
    RETRY_MAX_TIMEOUT := 5000
    RECURSION_LIMIT := 5
    MAX_QUERY_LENGTH := 1000
    MAX_THREAD_ID_LENGTH := 100 }

/-! ## Retry policy (call sites in `agent.ts`, backoff from the spec) -/

/-- The options object passed to the `retry` wrapper at a call site:
`retries`, `factor`, `minTimeout`, `maxTimeout`, plus the timeout raced
against the wrapped operation. -/
structure RetryPolicy where
  timeout : Nat
  retries : Nat
  factor : Nat
  minTimeout : Nat
  maxTimeout : Nat
deriving DecidableEq, Repr

/-- The retry policy used around the model invocation inside `callModel`:
a timeout promise of `CONFIG.MODEL_TIMEOUT` raced against `model.invoke`,
wrapped in `retry` with the `CONFIG` retry options. -/
def modelRetryPolicy : RetryPolicy :=
  { timeout := CONFIG.MODEL_TIMEOUT
    retries := CONFIG.MAX_MODEL_RETRIES
    factor := CONFIG.RETRY_FACTOR
    minTimeout := CONFIG.RETRY_MIN_TIMEOUT
    maxTimeout := CONFIG.RETRY_MAX_TIMEOUT }

/-- The retry policy used around the whole-turn `app.invoke` inside
`callAgent`: a timeout promise of `CONFIG.WORKFLOW_TIMEOUT` raced against
the workflow invocation, wrapped in `retry` with the `CONFIG` options. -/
def workflowRetryPolicy : RetryPolicy :=
  { timeout := CONFIG.WORKFLOW_TIMEOUT
    retries := CONFIG.MAX_WORKFLOW_RETRIES
    factor := CONFIG.RETRY_FACTOR
    minTimeout := CONFIG.RETRY_MIN_TIMEOUT
    maxTimeout := CONFIG.RETRY_MAX_TIMEOUT }

/-- Modelled from the spec: the exponential backoff wait of the external
`async-retry` library (not part of this repository). Before attempt
number `attempt` the wrapper waits
`min(minTimeout * factor ^ attempt, maxTimeout)` milliseconds. -/
def backoffWait (p : RetryPolicy) (attempt : Nat) : Nat :=
  min (p.minTimeout * p.factor ^ attempt) p.maxTimeout

/-! ## Error taxonomy (`src/server2/src/agent/config/errors.ts`) -/

/-- The error classes thrown inside a turn, as a closed tagged union:
`validation` for `ValidationError`, `modelTimeout` for
`ModelTimeoutError`, `workflow` for `WorkflowError`, and `unexpected`
for any other thrown value reaching the orchestrator catch. Each
constructor carries the error message. -/
inductive AgentErr where
  | validation (message : String)
  | modelTimeout (message : String)
  | workflow (message : String)
  | unexpected (message : String)
deriving DecidableEq, Repr

/-! ## Messages and tool calls (LangChain message classes as used here) -/

/-- A structured tool call attached to an assistant message:
`\x7b name, args, id \x7d` as produced by the model. -/
structure ToolCall where
  name : String
  id : String
  args : List (String × String)
deriving DecidableEq, Repr

/-- A conversation message. Only assistant (`ai`) messages carry a
`tool_calls` field, mirroring the LangChain classes `HumanMessage`,
`AIMessage` and `ToolMessage`. -/
inductive Message where
  | human (content : String)
  | ai (content : String) (tool_calls : List ToolCall)
  | tool (content : String) (tool_call_id : String)
deriving DecidableEq, Repr

/-- The `content` property of a message. -/
def Message.content : Message → String
  | Message.human c => c
  | Message.ai c _ => c
  | Message.tool c _ => c

/-- The JavaScript property access `message.tool_calls`: defined (a
list) on assistant messages, `undefined` (`none`) on the others. -/
def toolCallsOf : Message → Option (List ToolCall)
  | Message.ai _ tcs => some tcs
  | _ => none

/-- The graph state: `\x7b messages: BaseMessage[] \x7d` with the
concatenating reducer. -/
structure AgentState where
  messages : List Message
deriving DecidableEq, Repr

/-! ## Turn state machine routing (`shouldContinue`, `createWorkflow`) -/

/-- The node names of the workflow graph, from the `NodeNames` enum
(`__start__`, `agent`, `tools`, `__end__`). `end` is a Lean keyword, so
the last constructor is named `endNode`. -/
inductive NodeName where
  | start
  | agent
  | tools
  | endNode
deriving DecidableEq, Repr

/-- `shouldContinue` from `agent.ts`: reads the last message of the
state, returns `tools` when `lastMessage.tool_calls?.length` is truthy
(a defined, non-empty list) and `__end__` otherwise. On an empty message
list the source dereferences `undefined` and throws, modelled by
`none`. -/
def shouldContinue (state : AgentState) : Option NodeName :=
  match state.messages.getLast? with
  | none => none
  | some lastMessage =>
    match toolCallsOf lastMessage with
    | some (_ :: _) => some NodeName.tools
    | _ => some NodeName.endNode

/-- The edge structure installed by `createWorkflow`:
`addEdge(START, AGENT)`, `addConditionalEdges(AGENT, shouldContinue)`,
`addEdge(TOOLS, AGENT)`. `none` from the end node means the run is
over. -/
def nextNodeAfter : NodeName → AgentState → Option NodeName
  | NodeName.start, _ => some NodeName.agent
  | NodeName.tools, _ => some NodeName.agent
  | NodeName.agent, s => shouldContinue s
  | NodeName.endNode, _ => none

/-! ## Agent node error handling (`callModel`) -/

/-- Substring test over character lists: `needle` occurs in `hay`. -/
def startsWithChars : List Char → List Char → Bool
  | [], _ => true
  | _ :: _, [] => false
  | a :: as, b :: bs => a == b && startsWithChars as bs

/-- Whether `needle` occurs as a contiguous substring of `hay`. -/
def containsChars : List Char → List Char → Bool
  | [], needle => needle.isEmpty
  | hay@(_ :: t), needle =>
    startsWithChars needle hay || containsChars t needle

/-- The JavaScript test `error.message.includes("timeout")` from the
`callModel` catch block. -/
def includesTimeout (m : String) : Bool :=
  containsChars m.toList "timeout".toList

/-- The synthetic assistant message substituted by `callModel` on a
caught non-timeout error:
`new AIMessage("Error: Unable to process request.")`. -/
def syntheticErrorMessage : Message :=
  Message.ai "Error: Unable to process request." []

/-- The outcome of the retry-wrapped model invocation inside
`callModel`: the promise either resolves with the model reply or
rejects with an error carrying a message (after all wrapper retries). -/
inductive ModelOutcome where
  | ok (reply : Message)
  | err (message : String)
deriving DecidableEq, Repr

/-- `callModel` from `agent.ts` (CONFIG variant), as a function of the
retry-wrapped invocation outcome. On success it returns
`\x7b messages: [result] \x7d`. In the catch block, an error whose
message includes "timeout" is rethrown as `new ModelTimeoutError()`
(default message "Model request timed out"); any other error is
replaced by the synthetic assistant message. -/
def callModel : ModelOutcome → Except AgentErr (List Message)
  | ModelOutcome.ok reply => Except.ok [reply]
  | ModelOutcome.err m =>
    if includesTimeout m then
      Except.error (AgentErr.modelTimeout "Model request timed out")
    else
      Except.ok [syntheticErrorMessage]

/-! ## The turn run loop -/

/-- The message of the hard stop raised when the recursion limit is
exceeded (the workflow-limit error of the run loop). -/
def recursionLimitMessage : String :=
  "Recursion limit reached"

/-- Modelled from the spec: the graph run loop of the external LangGraph
runtime (not part of this repository). Routing between nodes uses the
source-derived `nextNodeAfter` (hence `shouldContinue`); the configured
recursion limit caps the number of Agent to Tools round trips, and
exceeding it is a hard stop surfacing a workflow-limit error. The agent
node behaviour and the tool executor are parameters. Returns the
workflow outcome paired with the number of Agent node visits
performed. An error raised by the agent node propagates and aborts the
run. The tools node resolves every tool call of the latest assistant
message, appending one tool-result message per call, then control
returns to the agent node. -/
def runTurn (agentNode : List Message → Except AgentErr Message)
    (toolExec : ToolCall → String) :
    Nat → List Message → Nat → Except AgentErr (List Message) × Nat
  | fuel, msgs, visits =>
    match agentNode msgs with
    | Except.error e => (Except.error e, visits + 1)
    | Except.ok reply =>
      let msgs2 := msgs ++ [reply]
      match nextNodeAfter NodeName.agent ⟨msgs2⟩ with
      | some NodeName.tools =>
        match fuel with
        | 0 => (Except.error (AgentErr.workflow recursionLimitMessage), visits + 1)
        | fuel2 + 1 =>
          let toolMsgs := ((toolCallsOf reply).getD []).map
            (fun tc => Message.tool (toolExec tc) tc.id)
          runTurn agentNode toolExec fuel2 (msgs2 ++ toolMsgs) (visits + 1)
      | _ => (Except.ok msgs2, visits + 1)

/-- One whole-turn workflow invocation: seed the state with the user
message (`app.invoke(\x7b messages: [new HumanMessage(query)] \x7d, ...)`)
and run the loop under the given recursion limit. -/
def runWorkflowApp (agentNode : List Message → Except AgentErr Message)
    (toolExec : ToolCall → String) (limit : Nat) (query : String) :
    Except AgentErr (List Message) × Nat :=
  runTurn agentNode toolExec limit [Message.human query] 0

/-! ## Input validation and the orchestrator (`validateInputs`, `callAgent`) -/

/-- `validateInputs` from `agent.ts`: `some e` means the function throws
the `ValidationError` `e`, `none` means validation passes. The checks
run in source order: falsy (empty) query, query length above
`CONFIG.MAX_QUERY_LENGTH`, falsy (empty) thread id, thread id length
above `CONFIG.MAX_THREAD_ID_LENGTH`. -/
def validateInputs (query thread_id : String) : Option AgentErr :=
  if query.length = 0 then
    some (AgentErr.validation "Query must be a non-empty string")
  else if query.length > CONFIG.MAX_QUERY_LENGTH then
    some (AgentErr.validation
      ("Query too long. Maximum length is " ++
        toString CONFIG.MAX_QUERY_LENGTH ++ " characters"))
  else if thread_id.length = 0 then
    some (AgentErr.validation "Thread ID must be a non-empty string")
  else if thread_id.length > CONFIG.MAX_THREAD_ID_LENGTH then
    some (AgentErr.validation
      ("Thread ID too long. Maximum length is " ++
        toString CONFIG.MAX_THREAD_ID_LENGTH ++ " characters"))
  else
    none

/-- The fixed user-safe response for `ModelTimeoutError` in the
`callAgent` catch block. -/
def fixedTimeoutResponse : String :=
  "The request timed out. Please try again with a simpler query."

/-- The fixed user-safe response for `WorkflowError` in the `callAgent`
catch block. -/
def fixedWorkflowResponse : String :=
  "There was an issue processing your request. Please try again."

/-- The fixed user-safe response for any other unexpected error in the
`callAgent` catch block. -/
def fixedUnexpectedResponse : String :=
  "Sorry, something went wrong while processing your request. Please try again later."

/-- The text prepended to a `ValidationError` message by the `callAgent`
catch block. -/
def validationResponseHeader : String :=
  "Validation Error: "

/-- The `callAgent` catch block: maps each caught error to the response
string returned to the caller, by `instanceof` dispatch on the error
class. -/
def mapErrorToResponse : AgentErr → String
  | AgentErr.validation m => validationResponseHeader ++ m
  | AgentErr.modelTimeout _ => fixedTimeoutResponse
  | AgentErr.workflow _ => fixedWorkflowResponse
  | AgentErr.unexpected _ => fixedUnexpectedResponse

/-- An external interaction performed by `callAgent`. The only external
machinery reachable from `callAgent` is the retry-wrapped workflow
invocation; checkpoint reads and writes happen exclusively inside it
(the `MongoDBSaver` checkpointer is part of the compiled workflow). -/
inductive ExtCall where
  | workflowInvoke
deriving DecidableEq, Repr

/-- `callAgent` from `agent.ts` (CONFIG variant), as a function of the
retry-wrapped workflow outcome `wf`. The body is one try block:
validation runs first and a `ValidationError` short-circuits to the
catch before any external call; otherwise the workflow runs and on
success the content of the last message is returned. Reading the last
message of an empty list throws a `TypeError`, caught by the generic
branch of the catch. The second component records the external calls
made. -/
def callAgentTrace (wf : Except AgentErr (List Message))
    (query thread_id : String) : String × List ExtCall :=
  match validateInputs query thread_id with
  | some e => (mapErrorToResponse e, [])
  | none =>
    match wf with
    | Except.error e => (mapErrorToResponse e, [ExtCall.workflowInvoke])
    | Except.ok msgs =>
      match msgs.getLast? with
      | some m => (m.content, [ExtCall.workflowInvoke])
      | none =>
        (mapErrorToResponse (AgentErr.unexpected "TypeError"),
          [ExtCall.workflowInvoke])

/-! ## JSON values and `JSON.stringify` -/

/-- A JSON value. `num` is an integer standin for the JavaScript number
carried in similarity scores; the orchestrator never computes with the
score, it only passes it through, so its exact numeric type is
irrelevant to the properties proved here. -/
inductive Json where
  | null
  | str (s : String)
  | num (n : Int)
  | arr (elems : List Json)
  | obj (fields : List (String × Json))

/-- Escaping of one character inside a JSON string literal, as
`JSON.stringify` does. -/
def escapeChar (c : Char) : String :=
  if c = '"' then "\\\""
  else if c = '\\' then "\\\\"
  else if c = '\n' then "\\n"
  else if c = '\t' then "\\t"
  else if c = '\r' then "\\r"
  else String.singleton c

/-- A JSON string literal with escaping. -/
def quoteJson (s : String) : String :=
  "\"" ++ String.join (s.toList.map escapeChar) ++ "\""

mutual

/-- `JSON.stringify` (no indentation): renders a JSON value. -/
def renderJson : Json → String
  | Json.null => "null"
  | Json.str s => quoteJson s
  | Json.num n => toString n
  | Json.arr xs => "[" ++ String.intercalate "," (renderJsonList xs) ++ "]"
  | Json.obj fs => "\x7b" ++ String.intercalate "," (renderJsonFields fs) ++ "\x7d"

/-- Renders each element of a JSON array. -/
def renderJsonList : List Json → List String
  | [] => []
  | j :: js => renderJson j :: renderJsonList js

/-- Renders each `key:value` field of a JSON object. -/
def renderJsonFields : List (String × Json) → List String
  | [] => []
  | (k, v) :: fs => (quoteJson k ++ ":" ++ renderJson v) :: renderJsonFields fs

end

/-! ## Employee semantic lookup tool (`employee-lookup.ts`) -/

/-- A rejected-promise error as seen in a catch block: only the
`message` property is read by the tool (`(error as Error).message`). -/
structure JsError where
  message : String
deriving DecidableEq, Repr

/-- One Qdrant search hit. `employee_id` and `summary` model the
optional-chaining reads `point.payload?.employee_id` and
`point.payload?.summary`: `none` when the payload or the key is absent.
The similarity score is an integer standin for the JavaScript number,
never computed with, only passed through. -/
structure SearchHit where
  score : Int
  employee_id : Option String
  summary : Option String

/-- The external collaborators of the lookup tool: the embedding
service, the vector index search, the zero-hit diagnostic probe
(`getCollection`), and the document store lookup (`collection.findOne`
by `employee_id`, resolving with the document or `null`). An
`Except.error` models a rejected promise. -/
structure LookupEnv where
  embed : String → Except JsError (List Int)
  search : List Int → Nat → Except JsError (List SearchHit)
  getCollectionInfo : Except JsError Json
  findOne : Option String → Except JsError (Option Json)

/-- The `summary` field of one enriched result object: `JSON.stringify`
omits the key when `point.payload?.summary` is `undefined`. -/
def summaryField (point : SearchHit) : List (String × Json) :=
  match point.summary with
  | some s => [("summary", Json.str s)]
  | none => []

/-- One enriched result object `\x7b score, summary, employee \x7d`
built per hit: score from the hit, summary from the payload (omitted
when undefined), employee the fetched document or JSON `null` when
`findOne` resolved with `null`. -/
def enrichedJson (point : SearchHit) (employeeData : Option Json) : Json :=
  Json.obj (("score", Json.num point.score) :: summaryField point ++
    [("employee", match employeeData with
      | some j => j
      | none => Json.null)])

/-- The per-hit fetch inside the `Promise.all`: look up the document by
`employee_id` and build the enriched result object. A rejection of
`findOne` rejects this element. -/
def enrichOne (env : LookupEnv) (point : SearchHit) : Except JsError Json :=
  match env.findOne point.employee_id with
  | Except.error e => Except.error e
  | Except.ok employeeData => Except.ok (enrichedJson point employeeData)

/-- `await Promise.all(searchResult.map(...))`: every per-hit fetch must
resolve, results are collected in hit order, and any rejection rejects
the whole combination. -/
def enrichAll (env : LookupEnv) : List SearchHit → Except JsError (List Json)
  | [] => Except.ok []
  | point :: rest =>
    match enrichOne env point with
    | Except.error e => Except.error e
    | Except.ok j =>
      match enrichAll env rest with
      | Except.error e => Except.error e
      | Except.ok js => Except.ok (j :: js)

/-- The JSON object `\x7b error, query \x7d` returned by the catch block
of the tool: `JSON.stringify(\x7b error: (error as Error).message, query \x7d)`. -/
def lookupErrorJson (e : JsError) (query : String) : Json :=
  Json.obj [("error", Json.str e.message), ("query", Json.str query)]

/-- The body of `employeeLookupTool` as a function of the collaborators,
the query and the result limit `n` (source default 100). One try block
spans all four steps: embed the query, search the vector index, on zero
hits probe the collection metadata (outcome logged and discarded by an
inner catch, so it never affects the result), enrich every hit via the
document store, and stringify the enriched array. Any rejection escaping
a step lands in the single catch, which returns the stringified
`\x7b error, query \x7d` object. -/
def employeeLookup (env : LookupEnv) (query : String) (n : Nat) : String :=
  match env.embed query with
  | Except.error e => renderJson (lookupErrorJson e query)
  | Except.ok queryEmbedding =>
    match env.search queryEmbedding n with
    | Except.error e => renderJson (lookupErrorJson e query)
    | Except.ok searchResult =>
      let _diagnosticProbe :=
        if searchResult.isEmpty then some env.getCollectionInfo else none
      match enrichAll env searchResult with
      | Except.error e => renderJson (lookupErrorJson e query)
      | Except.ok enrichedResults => renderJson (Json.arr enrichedResults)

/-- The value of `env.findOne` on a hit when it resolves, with `none`
standing for the JavaScript `null` of a missing record (also used, never
reached, when it rejects). -/
def foundRecord (env : LookupEnv) (point : SearchHit) : Option Json :=
  match env.findOne point.employee_id with
  | Except.ok r => r
  | Except.error _ => none

/-! ## Concrete fixtures used by witness theorems -/

/-- An agent node behaviour that always requests the lookup tool. -/
def demoLoopNode : List Message → Except AgentErr Message :=
  fun _ => Except.ok (Message.ai "calling tools"
    [{ name := "employee_lookup", id := "call1", args := [("query", "Python")] }])

/-- A tool executor returning a fixed tool result string. -/
def demoToolExec : ToolCall → String :=
  fun _ => "tool result"

/-- A concrete search hit with payload fields present. -/
def demoHit : SearchHit :=
  { score := 95, employee_id := some "E1", summary := some "summary one" }

/-- Collaborators where the vector search returns zero hits. -/
def demoEmptyEnv : LookupEnv :=
  { embed := fun _ => Except.ok [1, 2]
    search := fun _ _ => Except.ok []
    getCollectionInfo := Except.ok Json.null
    findOne := fun _ => Except.ok none }

/-- Collaborators where the embedding call rejects. -/
def demoEmbedFailEnv : LookupEnv :=
  { embed := fun _ => Except.error { message := "embed down" }
    search := fun _ _ => Except.ok []
    getCollectionInfo := Except.ok Json.null
    findOne := fun _ => Except.ok none }

/-- Collaborators where the search returns one hit and the document
store finds no record for it. -/
def demoMissingEnv : LookupEnv :=
  { embed := fun _ => Except.ok [1, 2]
    search := fun _ _ => Except.ok [demoHit]
    getCollectionInfo := Except.ok Json.null
    findOne := fun _ => Except.ok none }

/-- Collaborators where the search returns one hit and the document
store lookup rejects. -/
def demoThrowEnv : LookupEnv :=
  { embed := fun _ => Except.ok [1, 2]
    search := fun _ _ => Except.ok [demoHit]
    getCollectionInfo := Except.ok Json.null
    findOne := fun _ => Except.error { message := "socket closed" } }

/-! ## Helper lemmas -/

/-- The last message of a state after appending one message is that
message. -/
theorem getLast_append_singleton (l : List Message) (a : Message) :
    (l ++ [a]).getLast? = some a := by
  simp

/-- `shouldContinue` on a state ending in an assistant message routes on
whether that message has tool calls. -/
theorem shouldContinue_append_ai (msgs : List Message) (c : String)
    (tcs : List ToolCall) :
    shouldContinue ⟨msgs ++ [Message.ai c tcs]⟩ =
      (if tcs.isEmpty then some NodeName.endNode else some NodeName.tools) := by
  cases tcs with
  | nil => simp [shouldContinue, toolCallsOf]
  | cons t ts => simp [shouldContinue, toolCallsOf]

/-! ## Claim C1 -/

/-- Claim C1: Start transitions to Agent unconditionally and Tools
transitions back to Agent unconditionally; from Agent the conditional
edge goes to Tools exactly when the most recent message of the state is
an assistant message carrying at least one pending tool call, and to
End otherwise. -/
theorem agent_routing_iff_pending_tool_calls (s : AgentState)
    (h : s.messages ≠ []) :
    nextNodeAfter NodeName.start s = some NodeName.agent ∧
    nextNodeAfter NodeName.tools s = some NodeName.agent ∧
    (nextNodeAfter NodeName.agent s = some NodeName.tools ↔
      ∃ c tcs, s.messages.getLast? = some (Message.ai c tcs) ∧ tcs ≠ []) ∧
    ((¬ ∃ c tcs, s.messages.getLast? = some (Message.ai c tcs) ∧ tcs ≠ []) →
      nextNodeAfter NodeName.agent s = some NodeName.endNode) := by
  have hsome : s.messages.getLast?.isSome := by
    rw [List.getLast?_isSome]
    exact h
  obtain ⟨m, hm⟩ := Option.isSome_iff_exists.mp hsome
  refine ⟨rfl, rfl, ?_, ?_⟩
  · simp only [nextNodeAfter, shouldContinue, hm]
    cases m with
    | human c => simp [toolCallsOf]
    | tool c i => simp [toolCallsOf]
    | ai c tcs =>
      cases tcs with
      | nil => simp [toolCallsOf]
      | cons t ts =>
        simp only [toolCallsOf]
        constructor
        · intro _
          exact ⟨c, t :: ts, rfl, by simp⟩
        · intro _
          trivial
  · intro hno
    simp only [nextNodeAfter, shouldContinue, hm]
    cases m with
    | human c => simp [toolCallsOf]
    | tool c i => simp [toolCallsOf]
    | ai c tcs =>
      cases tcs with
      | nil => simp [toolCallsOf]
      | cons t ts =>
        exact absurd ⟨c, t :: ts, hm, by simp⟩ hno

/-- Witness for C1 at a concrete state: a single assistant message with
one pending tool call routes the Agent node to Tools. -/
theorem agent_routing_iff_pending_tool_calls_witness :
    nextNodeAfter NodeName.agent
      ⟨[Message.ai "calling"
        [{ name := "employee_lookup", id := "call1", args := [] }]]⟩ =
      some NodeName.tools := by
  have h := agent_routing_iff_pending_tool_calls
    ⟨[Message.ai "calling"
      [{ name := "employee_lookup", id := "call1", args := [] }]]⟩
    (by simp)
  exact h.2.2.1.mpr
    ⟨"calling", [{ name := "employee_lookup", id := "call1", args := [] }],
      rfl, by simp⟩

/-! ## Claim C2 -/

/-- The run loop performs at most `visits + fuel + 1` Agent node visits
in total, whatever the outcome. -/
theorem runTurn_visits_le (agentNode : List Message → Except AgentErr Message)
    (toolExec : ToolCall → String) :
    ∀ fuel msgs visits,
      (runTurn agentNode toolExec fuel msgs visits).2 ≤ visits + fuel + 1 := by
  intro fuel
  induction fuel with
  | zero =>
    intro msgs visits
    unfold runTurn
    split
    · dsimp only
      omega
    · split
      · dsimp only
        split <;> (dsimp only; omega)
      · omega
  | succ f ih =>
    intro msgs visits
    unfold runTurn
    split
    · dsimp only
      omega
    · split
      · omega
      · rename_i fuel2 heq
        have hf : fuel2 = f := by omega
        subst hf
        dsimp only
        split
        · exact le_trans (ih _ _) (by omega)
        · dsimp only
          omega

/-- If the agent node always replies with an assistant message carrying
pending tool calls, the run loop halts with the workflow-limit error
(it never loops forever). -/
theorem runTurn_hard_stop (agentNode : List Message → Except AgentErr Message)
    (toolExec : ToolCall → String)
    (hA : ∀ msgs, ∃ c tcs,
      agentNode msgs = Except.ok (Message.ai c tcs) ∧ tcs ≠ []) :
    ∀ fuel msgs visits,
      (runTurn agentNode toolExec fuel msgs visits).1 =
        Except.error (AgentErr.workflow recursionLimitMessage) := by
  intro fuel
  induction fuel with
  | zero =>
    intro msgs visits
    obtain ⟨c, tcs, hok, hne⟩ := hA msgs
    have hroute : nextNodeAfter NodeName.agent ⟨msgs ++ [Message.ai c tcs]⟩ =
        some NodeName.tools := by
      simp only [nextNodeAfter, shouldContinue_append_ai]
      cases tcs with
      | nil => exact absurd rfl hne
      | cons t ts => simp
    unfold runTurn
    rw [hok]
    dsimp only
    rw [hroute]
  | succ f ih =>
    intro msgs visits
    obtain ⟨c, tcs, hok, hne⟩ := hA msgs
    have hroute : nextNodeAfter NodeName.agent ⟨msgs ++ [Message.ai c tcs]⟩ =
        some NodeName.tools := by
      simp only [nextNodeAfter, shouldContinue_append_ai]
      cases tcs with
      | nil => exact absurd rfl hne
      | cons t ts => simp
    unfold runTurn
    rw [hok]
    dsimp only
    rw [hroute]
    dsimp only
    exact ih _ _

/-- Claim C2: for every agent node behaviour, tool executor and input
query, the number of Agent node visits in one turn is at most the
configured recursion limit plus one; the configured default limit is 5;
and a model that never stops requesting tools makes the run halt with
the workflow-limit error rather than looping forever. -/
theorem recursion_limit_bounds_agent_visits
    (agentNode : List Message → Except AgentErr Message)
    (toolExec : ToolCall → String) (query : String) :
    (runWorkflowApp agentNode toolExec CONFIG.RECURSION_LIMIT query).2 ≤
      CONFIG.RECURSION_LIMIT + 1 ∧
    CONFIG.RECURSION_LIMIT = 5 ∧
    ((∀ msgs, ∃ c tcs,
        agentNode msgs = Except.ok (Message.ai c tcs) ∧ tcs ≠ []) →
      (runWorkflowApp agentNode toolExec CONFIG.RECURSION_LIMIT query).1 =
        Except.error (AgentErr.workflow recursionLimitMessage)) := by
  refine ⟨?_, rfl, ?_⟩
  · have h := runTurn_visits_le agentNode toolExec CONFIG.RECURSION_LIMIT
      [Message.human query] 0
    simpa [runWorkflowApp] using h
  · intro hA
    exact runTurn_hard_stop agentNode toolExec hA CONFIG.RECURSION_LIMIT
      [Message.human query] 0

/-- Witness for C2 at a concrete run: with the default limit and an
agent node that always requests the lookup tool, the turn halts with
the workflow-limit error. -/
theorem recursion_limit_bounds_agent_visits_witness :
    (runWorkflowApp demoLoopNode demoToolExec CONFIG.RECURSION_LIMIT "hi").1 =
      Except.error (AgentErr.workflow recursionLimitMessage) := by
  exact (recursion_limit_bounds_agent_visits demoLoopNode demoToolExec "hi").2.2
    (fun msgs => ⟨"calling tools",
      [{ name := "employee_lookup", id := "call1", args := [("query", "Python")] }],
      rfl, by simp⟩)

/-! ## Claim C3 -/

/-- Counterexample to C3 as stated: when the retry-wrapped model call
rejects with the timeout error (message "Model timeout"), the Agent
node does NOT substitute the synthetic assistant message — its catch
block rethrows a `ModelTimeoutError`, propagating an exception into the
graph. -/
theorem callModel_timeout_propagates :
    callModel (ModelOutcome.err "Model timeout") =
      Except.error (AgentErr.modelTimeout "Model request timed out") ∧
    callModel (ModelOutcome.err "Model timeout") ≠
      Except.ok [syntheticErrorMessage] := by
  have h1 : callModel (ModelOutcome.err "Model timeout") =
      Except.error (AgentErr.modelTimeout "Model request timed out") := rfl
  refine ⟨h1, ?_⟩
  rw [h1]
  intro h
  exact Except.noConfusion h

/-- Claim C3 (amended): an unrecoverable error raised inside the Agent
node whose message does not contain "timeout" is not propagated — the
node substitutes the synthetic assistant message, so the graph still
reaches End; but an error whose message contains "timeout" (in
particular the model call timing out on every retry) is rethrown as a
`ModelTimeoutError` and propagates out of the node, so no synthetic
message reaches the state. -/
theorem callModel_error_handling (m : String)
    (h : includesTimeout m = false) :
    callModel (ModelOutcome.err m) = Except.ok [syntheticErrorMessage] ∧
    (∀ m2, includesTimeout m2 = true →
      callModel (ModelOutcome.err m2) =
        Except.error (AgentErr.modelTimeout "Model request timed out")) := by
  constructor
  · simp [callModel, h]
  · intro m2 h2
    simp [callModel, h2]

/-- Witness for C3 (amended) at a concrete non-timeout error: the node
returns the synthetic assistant message instead of raising. -/
theorem callModel_error_handling_witness :
    includesTimeout "connection reset" = false ∧
    callModel (ModelOutcome.err "connection reset") =
      Except.ok [syntheticErrorMessage] := by
  refine ⟨rfl, ?_⟩
  exact (callModel_error_handling "connection reset" rfl).1

/-! ## Claim C4 -/

/-- Counterexample to C4 as stated: with valid inputs, when the
workflow resolves with a final assistant message whose content is
empty, `callAgent` returns the empty string — neither a non-empty
string nor a typed error. -/
theorem callAgent_empty_content_counterexample :
    callAgentTrace (Except.ok [Message.ai "" []]) "hello" "thread-1" =
      ("", [ExtCall.workflowInvoke]) ∧
    validateInputs "hello" "thread-1" = none ∧
    "" ≠ fixedTimeoutResponse ∧
    "" ≠ fixedWorkflowResponse ∧
    "" ≠ fixedUnexpectedResponse ∧
    ("".startsWith validationResponseHeader) = false := by
  refine ⟨rfl, rfl, ?_, ?_, ?_, ?_⟩ <;> decide

/-- Claim C4 (amended): `callAgent` never throws — every outcome maps
to a returned string: a validation failure maps to the validation
response with no external call made, a workflow failure maps to the
fixed per-kind message, and a successful workflow maps to the content
of its final message (empty exactly when that content is empty); every
error response is a non-empty string. -/
theorem callAgent_total_and_bounded
    (wf : Except AgentErr (List Message)) (q t : String) :
    (∀ e, validateInputs q t = some e →
      callAgentTrace wf q t = (mapErrorToResponse e, [])) ∧
    (∀ e, validateInputs q t = none → wf = Except.error e →
      callAgentTrace wf q t = (mapErrorToResponse e, [ExtCall.workflowInvoke])) ∧
    (∀ msgs m, validateInputs q t = none → wf = Except.ok msgs →
      msgs.getLast? = some m →
      callAgentTrace wf q t = (m.content, [ExtCall.workflowInvoke])) ∧
    (∀ e, mapErrorToResponse e ≠ "") := by
  refine ⟨?_, ?_, ?_, ?_⟩
  · intro e he
    simp [callAgentTrace, he]
  · intro e hv hw
    simp [callAgentTrace, hv, hw]
  · intro msgs m hv hw hm
    simp [callAgentTrace, hv, hw, hm]
  · intro e
    cases e with
    | validation m =>
      intro hcon
      simp only [mapErrorToResponse] at hcon
      have hl := congrArg String.length hcon
      rw [String.length_append] at hl
      have h18 : validationResponseHeader.length = 18 := rfl
      have h0 : ("" : String).length = 0 := rfl
      rw [h18, h0] at hl
      omega
    | modelTimeout m =>
      simp only [mapErrorToResponse]
      decide
    | workflow m =>
      simp only [mapErrorToResponse]
      decide
    | unexpected m =>
      simp only [mapErrorToResponse]
      decide

/-- Witness for C4 (amended) at concrete inputs: a workflow error maps
to its fixed response, and the error responses are non-empty. -/
theorem callAgent_total_and_bounded_witness :
    callAgentTrace (Except.error (AgentErr.workflow "boom")) "hello" "thread-1" =
      (mapErrorToResponse (AgentErr.workflow "boom"), [ExtCall.workflowInvoke]) ∧
    mapErrorToResponse (AgentErr.workflow "boom") ≠ "" := by
  have h := callAgent_total_and_bounded
    (Except.error (AgentErr.workflow "boom")) "hello" "thread-1"
  exact ⟨h.2.1 (AgentErr.workflow "boom") rfl rfl,
    h.2.2.2 (AgentErr.workflow "boom")⟩

/-! ## Claim C5 -/

/-- Every error raised by `validateInputs` is a `ValidationError`. -/
theorem validateInputs_raises_validation (q t : String) (e : AgentErr)
    (h : validateInputs q t = some e) : ∃ m, e = AgentErr.validation m := by
  unfold validateInputs at h
  split_ifs at h <;> exact ⟨_, (Option.some.inj h).symm⟩

/-- Claim C5: validation runs before any external call and fails fast —
an empty or over-long query, or an empty or over-long thread id, raises
a `ValidationError` and `callAgent` returns with an empty external call
trace (no external call made, checkpoint untouched); validation passes
exactly when both inputs are non-empty and within the configured
bounds, which are 1000 and 100. -/
theorem validation_fails_fast (q t : String)
    (wf : Except AgentErr (List Message)) :
    (validateInputs q t = none ↔
      (q.length ≠ 0 ∧ q.length ≤ CONFIG.MAX_QUERY_LENGTH ∧
        t.length ≠ 0 ∧ t.length ≤ CONFIG.MAX_THREAD_ID_LENGTH)) ∧
    (∀ e, validateInputs q t = some e →
      (∃ m, e = AgentErr.validation m) ∧
      callAgentTrace wf q t = (mapErrorToResponse e, [])) ∧
    CONFIG.MAX_QUERY_LENGTH = 1000 ∧
    CONFIG.MAX_THREAD_ID_LENGTH = 100 := by
  refine ⟨?_, ?_, rfl, rfl⟩
  · unfold validateInputs
    split_ifs <;> simp_all
  · intro e he
    refine ⟨validateInputs_raises_validation q t e he, ?_⟩
    simp [callAgentTrace, he]

/-- Witness for C5 at concrete inputs: valid inputs pass validation; an
empty query raises the `ValidationError` immediately with an empty
external call trace. -/
theorem validation_fails_fast_witness :
    validateInputs "hi" "th" = none ∧
    callAgentTrace (Except.ok []) "" "th" =
      (mapErrorToResponse
        (AgentErr.validation "Query must be a non-empty string"), []) := by
  constructor
  · exact (validation_fails_fast "hi" "th" (Except.ok [])).1.mpr
      (by refine ⟨?_, ?_, ?_, ?_⟩ <;> decide)
  · exact ((validation_fails_fast "" "th" (Except.ok [])).2.1
      (AgentErr.validation "Query must be a non-empty string") rfl).2

/-! ## Claim C8 -/

/-- Claim C8: the resilience wrapper uses the default policy values —
model calls: timeout 10000 ms, 3 retries, backoff factor 2, backoff
bounds [1000 ms, 5000 ms]; whole-turn execution: timeout 30000 ms, 2
retries, same backoff shape — and before attempt number `attempt` it
waits `min(minTimeout * factor ^ attempt, maxTimeout)`. -/
theorem retry_policy_defaults_and_backoff (attempt : Nat) :
    modelRetryPolicy =
      { timeout := 10000, retries := 3, factor := 2,
        minTimeout := 1000, maxTimeout := 5000 } ∧
    workflowRetryPolicy =
      { timeout := 30000, retries := 2, factor := 2,
        minTimeout := 1000, maxTimeout := 5000 } ∧
    backoffWait modelRetryPolicy attempt = min (1000 * 2 ^ attempt) 5000 ∧
    backoffWait workflowRetryPolicy attempt = min (1000 * 2 ^ attempt) 5000 := by
  exact ⟨rfl, rfl, rfl, rfl⟩

/-! ## Claim C9 -/

/-- Claim C9: every model- or turn-level failure surviving the
resilience wrapper is caught once at the orchestrator boundary and
mapped to a single fixed user-safe message determined only by the error
kind — `ModelTimeoutError` to the fixed timed-out message — and the
internal error text carried by the error never influences the
response. -/
theorem orchestrator_fixed_messages_by_kind (m m2 q t : String) :
    mapErrorToResponse (AgentErr.modelTimeout m) = fixedTimeoutResponse ∧
    mapErrorToResponse (AgentErr.workflow m) = fixedWorkflowResponse ∧
    mapErrorToResponse (AgentErr.unexpected m) = fixedUnexpectedResponse ∧
    mapErrorToResponse (AgentErr.modelTimeout m) =
      mapErrorToResponse (AgentErr.modelTimeout m2) ∧
    mapErrorToResponse (AgentErr.workflow m) =
      mapErrorToResponse (AgentErr.workflow m2) ∧
    mapErrorToResponse (AgentErr.unexpected m) =
      mapErrorToResponse (AgentErr.unexpected m2) ∧
    (∀ e, validateInputs q t = none →
      callAgentTrace (Except.error e) q t =
        (mapErrorToResponse e, [ExtCall.workflowInvoke])) := by
  refine ⟨rfl, rfl, rfl, rfl, rfl, rfl, ?_⟩
  intro e hv
  simp [callAgentTrace, hv]

/-- Witness for C9 at a concrete failure: a `ModelTimeoutError`
carrying internal text is mapped at the boundary to the fixed timed-out
message. -/
theorem orchestrator_fixed_messages_by_kind_witness :
    callAgentTrace (Except.error (AgentErr.modelTimeout "ECONNRESET at 10.0.0.3"))
      "hello" "thread-1" =
      (fixedTimeoutResponse, [ExtCall.workflowInvoke]) := by
  have h := orchestrator_fixed_messages_by_kind
    "ECONNRESET at 10.0.0.3" "x" "hello" "thread-1"
  rw [h.2.2.2.2.2.2 (AgentErr.modelTimeout "ECONNRESET at 10.0.0.3") rfl, h.1]

/-! ## Claim C6 -/

/-- Claim C6: a failure of the embedding step or of the vector-search
step makes the lookup tool return the JSON string of the object with
`error` and `query` fields rather than throwing; zero search hits is
not an error — the tool returns the empty JSON array string. -/
theorem lookup_failure_and_zero_hit_policy
    (env : LookupEnv) (q : String) (n : Nat) :
    (∀ e, env.embed q = Except.error e →
      employeeLookup env q n = renderJson (lookupErrorJson e q)) ∧
    (∀ v e, env.embed q = Except.ok v → env.search v n = Except.error e →
      employeeLookup env q n = renderJson (lookupErrorJson e q)) ∧
    (∀ v, env.embed q = Except.ok v → env.search v n = Except.ok [] →
      employeeLookup env q n = "[]") := by
  refine ⟨?_, ?_, ?_⟩
  · intro e he
    simp [employeeLookup, he]
  · intro v e hv he
    simp [employeeLookup, hv, he]
  · intro v hv hs
    simp only [employeeLookup, hv, hs]
    rfl

/-- Witness for C6 at concrete collaborators: zero hits yield the empty
JSON array string, and a rejected embedding call yields the stringified
error object. -/
theorem lookup_failure_and_zero_hit_policy_witness :
    employeeLookup demoEmptyEnv "any" 3 = "[]" ∧
    employeeLookup demoEmbedFailEnv "any" 3 =
      renderJson (lookupErrorJson { message := "embed down" } "any") := by
  constructor
  · exact (lookup_failure_and_zero_hit_policy demoEmptyEnv "any" 3).2.2
      [1, 2] rfl rfl
  · exact (lookup_failure_and_zero_hit_policy demoEmbedFailEnv "any" 3).1
      { message := "embed down" } rfl

/-! ## Claim C7 -/

/-- When every per-hit document fetch resolves, the enrichment resolves
with one enriched object per hit, in hit order. -/
theorem enrichAll_ok (env : LookupEnv) :
    ∀ hits : List SearchHit,
      (∀ p ∈ hits, ∃ r, env.findOne p.employee_id = Except.ok r) →
      enrichAll env hits =
        Except.ok (hits.map (fun p => enrichedJson p (foundRecord env p)))
  | [], _ => rfl
  | p :: rest, h => by
    obtain ⟨r, hr⟩ := h p (List.mem_cons_self p rest)
    have ih := enrichAll_ok env rest (fun x hx => h x (List.mem_cons_of_mem _ hx))
    simp [enrichAll, enrichOne, hr, ih, foundRecord]

/-- Claim C7: when the embedding and search steps resolve and every
per-hit document fetch resolves, the lookup tool returns the JSON array
with one object per hit, collected in hit order, each carrying the hit
score, the payload summary and the fetched record; a hit whose record
is missing gets a JSON `null` employee field while its score and
summary fields are preserved, the other hits unaffected. -/
theorem lookup_enrichment_order_and_missing_record
    (env : LookupEnv) (q : String) (n : Nat) (v : List Int)
    (hits : List SearchHit)
    (h1 : env.embed q = Except.ok v)
    (h2 : env.search v n = Except.ok hits)
    (h3 : ∀ p ∈ hits, ∃ r, env.findOne p.employee_id = Except.ok r) :
    employeeLookup env q n =
      renderJson (Json.arr
        (hits.map (fun p => enrichedJson p (foundRecord env p)))) ∧
    (∀ p : SearchHit, enrichedJson p none =
      Json.obj (("score", Json.num p.score) :: summaryField p ++
        [("employee", Json.null)])) := by
  constructor
  · simp [employeeLookup, h1, h2, enrichAll_ok env hits h3]
  · intro p
    rfl

/-- Witness for C7 at concrete collaborators: one hit whose record is
missing is rendered with its score and summary and a null employee. -/
theorem lookup_enrichment_order_and_missing_record_witness :
    employeeLookup demoMissingEnv "any" 3 =
      renderJson (Json.arr [enrichedJson demoHit none]) := by
  have h := (lookup_enrichment_order_and_missing_record demoMissingEnv "any" 3
    [1, 2] [demoHit] rfl rfl (fun p _ => ⟨none, rfl⟩)).1
  exact h

/-! ## Claim C10 -/

/-- If some per-hit document fetch rejects, the whole enrichment
rejects. -/
theorem enrichAll_error_of_mem (env : LookupEnv) :
    ∀ (hits : List SearchHit) (p : SearchHit) (e : JsError),
      p ∈ hits → env.findOne p.employee_id = Except.error e →
      ∃ e2, enrichAll env hits = Except.error e2
  | q :: rest, p, e, hmem, herr => by
    cases List.mem_cons.mp hmem with
    | inl hpq =>
      subst hpq
      exact ⟨e, by simp [enrichAll, enrichOne, herr]⟩
    | inr hmem2 =>
      cases h1 : enrichOne env q with
      | error e0 => exact ⟨e0, by simp [enrichAll, h1]⟩
      | ok j =>
        obtain ⟨e2, h2⟩ := enrichAll_error_of_mem env rest p e hmem2 herr
        exact ⟨e2, by simp [enrichAll, h1, h2]⟩

/-- Claim C10: a per-hit document-store fetch that rejects (as opposed
to resolving with no record) aborts the entire tool call: the single
catch spans all steps, so the tool returns the stringified
`error`/`query` object and every hit score and summary is discarded. -/
theorem lookup_fetch_rejection_aborts_call
    (env : LookupEnv) (q : String) (n : Nat) (v : List Int)
    (hits : List SearchHit) (e : JsError)
    (h1 : env.embed q = Except.ok v)
    (h2 : env.search v n = Except.ok hits)
    (h3 : enrichAll env hits = Except.error e) :
    employeeLookup env q n = renderJson (lookupErrorJson e q) ∧
    (∀ (hits2 : List SearchHit) (p : SearchHit) (e2 : JsError),
      p ∈ hits2 → env.findOne p.employee_id = Except.error e2 →
      ∃ e3, enrichAll env hits2 = Except.error e3) := by
  constructor
  · simp [employeeLookup, h1, h2, h3]
  · intro hits2 p e2 hmem herr
    exact enrichAll_error_of_mem env hits2 p e2 hmem herr

/-- Witness for C10 at concrete collaborators: the rejecting document
fetch makes the tool return the stringified error object, dropping the
hit. -/
theorem lookup_fetch_rejection_aborts_call_witness :
    employeeLookup demoThrowEnv "any" 3 =
      renderJson (lookupErrorJson { message := "socket closed" } "any") := by
  exact (lookup_fetch_rejection_aborts_call demoThrowEnv "any" 3
    [1, 2] [demoHit] { message := "socket closed" } rfl rfl rfl).1
